import Mathlib

/-!
Verification development for the Zantra Medical orchestration repository.

The definitions below are a shallow embedding of the two core modules the
specification covers:

* `src/connector/halo_client.py` — OAuth2 token caching (`TokenData`,
  `HaloBaseClient._get_access_token`), resilient request dispatch
  (`HaloBaseClient._request`) and error-response logging
  (`HaloBaseClient._log_error_response`);
* `src/orchestrator/main.py` — the durable task log (`TaskLogger`),
  the daily scheduler (`ScheduledTask._schedule_next`,
  `DailyTaskScheduler.start`), the logging wrapper
  (`execute_with_logging`) and the CLI entry point (`main`).

Python values flowing through these functions are modelled by the `Json`
inductive below; Python exceptions are modelled by explicit `Except`/error
results; wall-clock instants are integers (seconds).  Timestamps that are
only formatted and stored (never compared) are carried as opaque strings.
-/

namespace Zantra

/-- JSON values as produced by `json.loads` / `response.json()`.  Numbers are
restricted to integers, which covers every value the client inspects
(`expires_in`, status codes); no floating-point field is ever interpreted
numerically by the code under verification. -/
inductive Json where
  | null
  | bool (b : Bool)
  | num (n : Int)
  | str (s : String)
  | arr (elems : List Json)
  | obj (fields : List (String × Json))
deriving Repr

/-- First binding of `key` in an association list (Python `dict` lookup;
the dictionaries built here have distinct keys). -/
def lookupField : List (String × Json) → String → Option Json
  | [], _ => none
  | (k, v) :: rest, key => if k = key then some v else lookupField rest key

/-- `data.get(key)` for an object; `none` both when the key is absent and
when the value is not queried on an object (call sites match on `obj`
before using this). -/
def Json.get : Json → String → Option Json
  | .obj fields, key => lookupField fields key
  | _, _ => none

/-- Python truthiness (`bool(v)`) of a JSON value: `None`, `False`, `0`,
`""`, `[]` and `{}` are falsy. -/
def pyFalsy : Json → Bool
  | .null => true
  | .bool b => !b
  | .num n => n == 0
  | .str s => s == ""
  | .arr elems => elems.isEmpty
  | .obj fields => fields.isEmpty

/-- Digits of a decimal literal to a natural number; `none` on a non-digit
or on the empty list. -/
def digitsToNat : List Char → Option Nat
  | [] => none
  | cs => go cs 0
where
  go : List Char → Nat → Option Nat
    | [], acc => some acc
    | c :: rest, acc =>
      if c.isDigit then go rest (acc * 10 + (c.toNat - '0'.toNat)) else none

/-- Leading and trailing whitespace removed (Python `str.strip()`). -/
def stripChars (cs : List Char) : List Char :=
  ((cs.dropWhile Char.isWhitespace).reverse.dropWhile Char.isWhitespace).reverse

/-- Python `int(s)` on a string: surrounding whitespace stripped, optional
sign, then decimal digits; `none` models `ValueError`. -/
def pyStrToInt (s : String) : Option Int :=
  match stripChars s.data with
  | '+' :: rest => (digitsToNat rest).map Int.ofNat
  | '-' :: rest => (digitsToNat rest).map (fun n => -(Int.ofNat n))
  | cs => (digitsToNat cs).map Int.ofNat

/-- Python `int(v)` on a JSON value: integers pass through, booleans coerce
to 0/1, numeric strings parse; everything else (`None`, lists, objects)
raises `TypeError`/`ValueError`, modelled as `none`. -/
def pyToInt : Json → Option Int
  | .num n => some n
  | .bool b => some (if b then 1 else 0)
  | .str s => pyStrToInt s
  | _ => none

/-! ## Token manager (`halo_client.py`, `TokenData` and `_get_access_token`) -/

/-- `TokenData`: the cached OAuth2 token. -/
structure TokenData where
  access_token : String
  expires_at : Int
deriving Repr, DecidableEq

/-- `TokenData.is_valid(buffer_seconds)`: the token is usable while
`now + buffer < expires_at`.  The ambient `datetime.utcnow()` is passed
explicitly as `now`. -/
def TokenData.is_valid (t : TokenData) (buffer_seconds now : Int) : Bool :=
  now + buffer_seconds < t.expires_at

/-- The Halo client's exception classes (`HaloAuthError`, `HaloAPIError`,
both subclasses of `HaloClientError`). -/
inductive HaloError where
  | authError (msg : String)
  | apiError (msg : String)
deriving Repr, DecidableEq

/-- Any Python exception escaping the client: a `HaloClientError` subclass,
or an `AttributeError` (raised by `data.get` when `response.json()` parsed
to a non-dict and never caught by the client). -/
inductive PyError where
  | halo (e : HaloError)
  | attributeError
deriving Repr, DecidableEq

/-- Outcome of the one token-endpoint POST in `_get_access_token`:
`netFail` covers every `requests.RequestException` (transport failure and
`raise_for_status` alike); `got body` is an HTTP-success response whose
`response.json()` parse result is `body` (`none` when the body is not
valid JSON, i.e. `ValueError`). -/
inductive TokenFetchOutcome where
  | netFail
  | got (body : Option Json)
deriving Repr

/-- Lines 133–174 of `_get_access_token`: the refresh path executed under
the lock once the cached token was found missing or stale.  Returns the
new `TokenData` or the exception raised. -/
def refreshToken (now : Int) (outcome : TokenFetchOutcome) : Except PyError TokenData :=
  match outcome with
  | .netFail => .error (.halo (.authError "Failed to obtain Halo Connect token"))
  | .got none => .error (.halo (.authError "Invalid token response from Halo Connect"))
  | .got (some data) =>
    match data with
    | .obj fields =>
      match lookupField fields "access_token" with
      | some (.str s) =>
        if s = "" then
          .error (.halo (.authError "Token response missing access_token"))
        else
          match lookupField fields "expires_in" with
          | none => .ok ⟨s, now + 300⟩
          | some v =>
            if pyFalsy v then .ok ⟨s, now + 300⟩
            else
              match pyToInt v with
              | some k => .ok ⟨s, now + k⟩
              | none =>
                .error (.halo (.authError "Invalid expires_in value in token response"))
      | _ => .error (.halo (.authError "Token response missing access_token"))
    | _ => .error .attributeError

/-- Result of one `_get_access_token` call: whether a token-endpoint
request was issued, the value returned (or exception raised), and the
cached token afterwards. -/
structure TokenCallResult where
  requested : Bool
  result : Except PyError String
  cache : Option TokenData
deriving Repr

/-- `_get_access_token` (lines 123–174).  In a sequential execution the
lock-free fast-path check and the re-check under the lock observe the same
cache, so they collapse to one validity test; `outcome` is what the token
endpoint would answer if asked. -/
def getAccessToken (cached : Option TokenData) (buffer now : Int)
    (outcome : TokenFetchOutcome) : TokenCallResult :=
  match cached with
  | some t =>
    if t.is_valid buffer now then ⟨false, .ok t.access_token, some t⟩
    else
      match refreshToken now outcome with
      | .ok td => ⟨true, .ok td.access_token, some td⟩
      | .error e => ⟨true, .error e, some t⟩
  | none =>
    match refreshToken now outcome with
    | .ok td => ⟨true, .ok td.access_token, some td⟩
    | .error e => ⟨true, .error e, none⟩

/-- The cached token is absent or fails the buffered validity check. -/
def cacheStale (cached : Option TokenData) (buffer now : Int) : Bool :=
  match cached with
  | none => true
  | some t => !t.is_valid buffer now

/-! ## Request dispatch and error-response logging (`_request`,
`_log_error_response`) -/

/-- The slice of a `requests.Response` the client inspects: status code,
`Content-Type` header, body text, and the result of `response.json()`
(`none` when the body is not valid JSON). -/
structure HttpResponse where
  status : Nat
  contentType : String
  text : String
  jsonBody : Option Json
deriving Repr

/-- Outcome of the one `session.request` call inside `_request`:
`transportFail` is a `requests.RequestException` with no response ever
received (including retry exhaustion inside the `HTTPAdapter`); `got r`
is a received response. -/
inductive RequestOutcome where
  | transportFail
  | got (r : HttpResponse)
deriving Repr

/-- `s[:n]` on a Python string. -/
def pyTake (n : Nat) (s : String) : String :=
  String.mk (s.data.take n)

/-- Python `"json" in content_type`: substring search. -/
def hasJsonSub : List Char → Bool
  | [] => false
  | c :: rest => List.isPrefixOf "json".data (c :: rest) || hasJsonSub rest

/-- What `_log_error_response` writes about the body: either the full
parsed JSON document, or the raw text truncated to 2048 characters. -/
inductive LoggedBody where
  | parsed (j : Json)
  | textTrunc (s : String)
deriving Repr

/-- One `logger.error` record emitted by `_log_error_response`. -/
structure LoggedError where
  status : Nat
  body : LoggedBody
deriving Repr

/-- `_log_error_response` (lines 221–233): when the `Content-Type`
mentions `json` and the body parses, the parsed document is logged;
otherwise the text truncated to 2048 characters is logged. -/
def logErrorResponse (r : HttpResponse) : LoggedError :=
  if hasJsonSub r.contentType.data then
    match r.jsonBody with
    | some j => ⟨r.status, .parsed j⟩
    | none => ⟨r.status, .textTrunc (pyTake 2048 r.text)⟩
  else ⟨r.status, .textTrunc (pyTake 2048 r.text)⟩

/-- Number of characters a logged body occupies: full recursive size of a
parsed document (at least the length of every string in it), or the
length of the truncated text. -/
def jsonChars : Json → Nat
  | .null => 4
  | .bool _ => 5
  | .num _ => 1
  | .str s => s.length
  | .arr elems => 2 + jsonListChars elems
  | .obj fields => 2 + jsonFieldChars fields
where
  jsonListChars : List Json → Nat
    | [] => 0
    | j :: rest => jsonChars j + jsonListChars rest
  jsonFieldChars : List (String × Json) → Nat
    | [] => 0
    | (k, v) :: rest => k.length + jsonChars v + jsonFieldChars rest

/-- Characters occupied by the record `_log_error_response` emits for the
body. -/
def LoggedBody.chars : LoggedBody → Nat
  | .parsed j => jsonChars j
  | .textTrunc s => s.length

/-- `_request` (lines 176–219), starting after URL/header assembly, given
the already-computed token acquisition result and the transport outcome.
Returns the response or the exception raised, paired with the
`_log_error_response` records emitted.  Both a transport failure and an
unexpected status raise `HaloAPIError`. -/
def requestRun (tokenRes : Except PyError String) (outcome : RequestOutcome)
    (expected : List Nat) : Except PyError HttpResponse × List LoggedError :=
  match tokenRes with
  | .error e => (.error e, [])
  | .ok _ =>
    match outcome with
    | .transportFail =>
      (.error (.halo (.apiError "Failed to execute request to Halo Connect")), [])
    | .got r =>
      if r.status ∈ expected then (.ok r, [])
      else
        (.error (.halo (.apiError
          ("Halo Connect responded with unexpected status "
            ++ toString r.status ++ ": " ++ r.text))),
         [logErrorResponse r])

/-! ## Task logger (`orchestrator/main.py`, `TaskLogger`) -/

/-- State of the log file on disk.  `blank` is a file whose content strips
to the empty string; `doc j` is a file holding the serialization of the
JSON document `j` (such content never strips to empty); `corrupt` is a
file with non-empty content that `json.loads` rejects. -/
inductive FileState where
  | absent
  | blank
  | doc (j : Json)
  | corrupt
deriving Repr

/-- `TaskLogger._read_history` (lines 71–85): missing or blank file reads
as the empty history; unparseable content raises the corruption
`ValueError`; parseable non-array content raises the list-shape
`ValueError`; an array reads as its entries. -/
def readHistory : FileState → Except String (List Json)
  | .absent => .ok []
  | .blank => .ok []
  | .corrupt => .error "Task log is corrupted and cannot be parsed"
  | .doc j =>
    match j with
    | .arr elems => .ok elems
    | _ => .error "Task log must contain a JSON list of entries."

/-- `TaskLogger.log` (lines 43–69), after the entry dict has been built:
read the history, append, rewrite the file.  Returns the exception raised
(if any) and the file state afterwards; when `_read_history` raises, the
`write_text` call is never reached, so the file is returned unchanged. -/
def logWrite (fs : FileState) (entry : Json) : Option String × FileState :=
  match readHistory fs with
  | .error m => (some m, fs)
  | .ok history => (none, .doc (.arr (history ++ [entry])))

/-- The entry dict built by `TaskLogger.log`: `message` is included only
when truthy (non-`None` and non-empty), `details` whenever it is not
`None`. -/
def mkEntry (task status started_at completed_at : String)
    (message : Option String) (details : Option Json) : Json :=
  .obj ([("task", .str task), ("status", .str status),
         ("started_at", .str started_at), ("completed_at", .str completed_at)]
    ++ (match message with
        | some m => if m = "" then [] else [("message", .str m)]
        | none => [])
    ++ (match details with
        | some d => [("details", d)]
        | none => []))

/-- Sequential `log()` calls: thread the file state through the list,
stopping at the first raised exception. -/
def logAll (fs : FileState) : List Json → Option String × FileState
  | [] => (none, fs)
  | e :: rest =>
    match logWrite fs e with
    | (some m, fs2) => (some m, fs2)
    | (none, fs2) => logAll fs2 rest

/-! ## Daily scheduler (`ScheduledTask`, `DailyTaskScheduler`,
`execute_with_logging`, `main`) -/

/-- Behaviour of a registered zero-argument action when invoked:
it returns a value (`completes`), or raises an exception whose
`str(exc)` is `msg` (`throws`). -/
inductive ActionSpec where
  | completes (result : Option Json)
  | throws (msg : String)
deriving Repr

/-- Wall-clock instants for the scheduler are seconds; a `time_of_day` is
a second-of-day below this constant. -/
def secsPerDay : Nat := 86400

/-- `ScheduledTask._schedule_next` (lines 100–105): combine today's date
with `time_of_day`; if that instant has passed (or is now), roll to the
same time tomorrow.  `now / secsPerDay * secsPerDay` is midnight of the
current day. -/
def scheduleNext (now tod : Nat) : Nat :=
  let candidate := now / secsPerDay * secsPerDay + tod
  if candidate ≤ now then candidate + secsPerDay else candidate

/-- `ScheduledTask`: a registered daily task. -/
structure STask where
  name : String
  time_of_day : Nat
  next_run : Nat
  action : ActionSpec
deriving Repr

/-- `DailyTaskScheduler.add_daily_task` constructs a `ScheduledTask`,
whose `__post_init__` immediately computes `next_run`. -/
def registerTask (now : Nat) (name : String) (tod : Nat) (action : ActionSpec) : STask :=
  ⟨name, tod, scheduleNext now tod, action⟩

/-- The log entry `execute_with_logging` (lines 150–176) emits in its
`finally` block: on normal return `status="success"` with the result as
`details` when it is a dict; on an exception `status="failed"` with
`message=str(exc)`. -/
def actionEntry (name : String) (a : ActionSpec) (started completed : String) : Json :=
  match a with
  | .completes r =>
    mkEntry name "success" started completed none
      (match r with
       | some (.obj fields) => some (.obj fields)
       | _ => none)
  | .throws m => mkEntry name "failed" started completed (some m) none

/-- A task is due when `now >= task.next_run` (line 134). -/
def isDue (now : Nat) (t : STask) : Bool :=
  t.next_run ≤ now

/-- One iteration of the poll loop in `DailyTaskScheduler.start`
(lines 131–142): every due task is executed through
`execute_with_logging`; an exception from the execution (the action's, or
the logger's) is caught and discarded at the loop level so the remaining
tasks still run; `task.mark_executed()` recomputes `next_run` in a
`finally` block regardless of outcome.  `ts` stands for the formatted
timestamps written into entries; the wall clock is sampled once per
cycle. -/
def pollCycle (now : Nat) (ts : String) (fs : FileState) :
    List STask → FileState × List STask
  | [] => (fs, [])
  | t :: rest =>
    if isDue now t then
      let fs2 := (logWrite fs (actionEntry t.name t.action ts ts)).2
      let t2 := { t with next_run := scheduleNext now t.time_of_day }
      let step := pollCycle now ts fs2 rest
      (step.1, t2 :: step.2)
    else
      let step := pollCycle now ts fs rest
      (step.1, t :: step.2)

/-- The CLI commands the entry point runs once and returns from
(`run_scheduler`, the third choice, blocks in the poll loop and is
covered by `pollCycle` above). -/
inductive Command where
  | run_recalls
  | run_claims
deriving Repr

/-- The task name `main` passes to `execute_with_logging` for each
one-shot command. -/
def cmdTaskName : Command → String
  | .run_recalls => "daily_recalls"
  | .run_claims => "daily_claims"

/-- `main` (lines 237–247) for the one-shot commands: dispatches to
`execute_with_logging(name, action, logger)` with no surrounding
`try`/`except`.  The wrapper logs in its `finally` block and re-raises the
action's exception, so `main` returns 0 exactly when neither the action
nor the log write raised; an `Except.error` models an exception escaping
`main` (the process then exits with a non-zero status). -/
def mainRun (cmd : Command) (a : ActionSpec) (fs : FileState) (ts : String) :
    Except String Int × FileState :=
  match logWrite fs (actionEntry (cmdTaskName cmd) a ts ts) with
  | (some m, fs2) => (.error m, fs2)
  | (none, fs2) =>
    match a with
    | .completes _ => (.ok 0, fs2)
    | .throws m => (.error m, fs2)

/-! ## Theorems -/

/-- C3: at registration and after every execution attempt, `next_run` is
the next occurrence of `time_of_day` at or after `now` — today's
occurrence when it is still strictly ahead, tomorrow's when today's has
passed or equals `now` — hence `next_run` is never in the past (it is in
fact strictly in the future).  Stated for `scheduleNext`, the model of
`ScheduledTask._schedule_next`, which both `__post_init__` (registration,
see `registerTask`) and `mark_executed` call. -/
theorem scheduleNext_next_occurrence (now tod : Nat) (h : tod < secsPerDay) :
    now < scheduleNext now tod
    ∧ scheduleNext now tod % secsPerDay = tod
    ∧ (∀ v, v % secsPerDay = tod → now < v → scheduleNext now tod ≤ v)
    ∧ (now / secsPerDay * secsPerDay + tod ≤ now →
        scheduleNext now tod = now / secsPerDay * secsPerDay + tod + secsPerDay)
    ∧ (now < now / secsPerDay * secsPerDay + tod →
        scheduleNext now tod = now / secsPerDay * secsPerDay + tod)
    ∧ (registerTask now "n" tod (.throws "e")).next_run = scheduleNext now tod := by
  refine ⟨?_, ?_, fun v hv hvn => ?_, fun hc => ?_, fun hc => ?_, rfl⟩ <;>
    · simp only [scheduleNext, secsPerDay] at *
      split_ifs <;> omega

/-- Witness for C3 at `now = 100000`, `tod = 3600` (today's 01:00 has
passed, so the next run is tomorrow's 01:00 = 176400). -/
theorem scheduleNext_next_occurrence_witness :
    100000 < scheduleNext 100000 3600 ∧ scheduleNext 100000 3600 = 176400 :=
  ⟨(scheduleNext_next_occurrence 100000 3600 (by decide)).1, by decide⟩

/-- Helper: once `access_token` is a non-empty string, `refreshToken` is
determined by the `expires_in` field alone. -/
theorem refreshToken_access_ok (now : Int) (fields : List (String × Json)) (s : String)
    (hs : lookupField fields "access_token" = some (.str s)) (hne : s ≠ "") :
    refreshToken now (.got (some (.obj fields)))
      = match lookupField fields "expires_in" with
        | none => .ok ⟨s, now + 300⟩
        | some v =>
          if pyFalsy v then .ok ⟨s, now + 300⟩
          else
            match pyToInt v with
            | some k => .ok ⟨s, now + k⟩
            | none =>
              .error (.halo (.authError "Invalid expires_in value in token response")) := by
  simp [refreshToken, hs, hne]

/-- Helper: a stale or absent cache routes `_get_access_token` through the
refresh path, and a successful refresh is returned and cached. -/
theorem getAccessToken_stale (cached : Option TokenData) (buffer now : Int)
    (outcome : TokenFetchOutcome) (td : TokenData)
    (hstale : cacheStale cached buffer now = true)
    (hr : refreshToken now outcome = .ok td) :
    getAccessToken cached buffer now outcome = ⟨true, .ok td.access_token, some td⟩ := by
  cases cached with
  | none => simp [getAccessToken, hr]
  | some t =>
    simp only [cacheStale, Bool.not_eq_true'] at hstale
    simp [getAccessToken, hstale, hr]

/-- C1: while the cached token is valid under the refresh buffer
(`now + buffer < expires_at`) the cached access token is returned and no
token-endpoint request is made; when the cache is absent or invalid a
request is made, and on success the newly cached token has
`expires_at = now + expires_in`, with `expires_in` defaulting to 300
seconds when absent from the response. -/
theorem getAccessToken_cache_spec :
    (∀ (t : TokenData) (buffer now : Int) (outcome : TokenFetchOutcome),
        t.is_valid buffer now = true →
        getAccessToken (some t) buffer now outcome = ⟨false, .ok t.access_token, some t⟩)
    ∧ (∀ (cached : Option TokenData) (buffer now : Int) (outcome : TokenFetchOutcome),
        cacheStale cached buffer now = true →
        (getAccessToken cached buffer now outcome).requested = true)
    ∧ (∀ (cached : Option TokenData) (buffer now : Int)
          (fields : List (String × Json)) (s : String),
        cacheStale cached buffer now = true →
        lookupField fields "access_token" = some (.str s) → s ≠ "" →
        lookupField fields "expires_in" = none →
        getAccessToken cached buffer now (.got (some (.obj fields)))
          = ⟨true, .ok s, some ⟨s, now + 300⟩⟩)
    ∧ (∀ (cached : Option TokenData) (buffer now : Int)
          (fields : List (String × Json)) (s : String) (v : Json) (k : Int),
        cacheStale cached buffer now = true →
        lookupField fields "access_token" = some (.str s) → s ≠ "" →
        lookupField fields "expires_in" = some v →
        pyFalsy v = false → pyToInt v = some k →
        getAccessToken cached buffer now (.got (some (.obj fields)))
          = ⟨true, .ok s, some ⟨s, now + k⟩⟩) := by
  refine ⟨fun t buffer now outcome hvalid => ?_,
          fun cached buffer now outcome hstale => ?_,
          fun cached buffer now fields s hstale hs hne hexp => ?_,
          fun cached buffer now fields s v k hstale hs hne hexp hfal hint => ?_⟩
  · simp [getAccessToken, hvalid]
  · cases cached with
    | none =>
      simp only [getAccessToken]
      cases refreshToken now outcome <;> simp
    | some t =>
      simp only [cacheStale, Bool.not_eq_true'] at hstale
      simp only [getAccessToken, TokenData.is_valid] at hstale ⊢
      simp [hstale]
      cases refreshToken now outcome <;> simp
  · have hr := refreshToken_access_ok now fields s hs hne
    rw [hexp] at hr
    exact getAccessToken_stale cached buffer now _ _ hstale hr
  · have hr := refreshToken_access_ok now fields s hs hne
    rw [hexp] at hr
    simp only [hfal, if_false, hint] at hr
    exact getAccessToken_stale cached buffer now _ _ hstale hr

/-- Witness for C1: a valid cached token (`0 + 60 < 1000`) is served
without a request; with no cache, a response lacking `expires_in` caches
a token expiring 300 seconds from `now = 0`. -/
theorem getAccessToken_cache_spec_witness :
    getAccessToken (some ⟨"tok", 1000⟩) 60 0 .netFail
      = ⟨false, .ok "tok", some ⟨"tok", 1000⟩⟩
    ∧ getAccessToken none 60 0 (.got (some (.obj [("access_token", .str "abc")])))
      = ⟨true, .ok "abc", some ⟨"abc", 300⟩⟩ :=
  ⟨getAccessToken_cache_spec.1 ⟨"tok", 1000⟩ 60 0 .netFail (by decide),
   getAccessToken_cache_spec.2.2.1 none 60 0 [("access_token", .str "abc")] "abc"
     rfl rfl (by decide) rfl⟩

/-- C10: a token response whose `expires_in` is present but falsy (0,
empty string, `null`, …) is treated exactly as if the field were absent:
`if not expires_in` takes the defaulting branch, so no exception is
raised and the cached token expires 300 seconds in the future rather
than immediately. -/
theorem getAccessToken_falsy_expires_in (cached : Option TokenData) (buffer now : Int)
    (fields : List (String × Json)) (s : String) (v : Json)
    (hstale : cacheStale cached buffer now = true)
    (hs : lookupField fields "access_token" = some (.str s)) (hne : s ≠ "")
    (hv : lookupField fields "expires_in" = some v) (hf : pyFalsy v = true) :
    getAccessToken cached buffer now (.got (some (.obj fields)))
      = ⟨true, .ok s, some ⟨s, now + 300⟩⟩ := by
  have hr := refreshToken_access_ok now fields s hs hne
  rw [hv] at hr
  simp only [hf, if_true] at hr
  exact getAccessToken_stale cached buffer now _ _ hstale hr

/-- Witness for C10 at `expires_in = 0`: the token is cached with
`expires_at = 0 + 300`, not an immediately-expired token. -/
theorem getAccessToken_falsy_expires_in_witness :
    getAccessToken none 60 0
        (.got (some (.obj [("access_token", .str "tok"), ("expires_in", .num 0)])))
      = ⟨true, .ok "tok", some ⟨"tok", 300⟩⟩ :=
  getAccessToken_falsy_expires_in none 60 0
    [("access_token", .str "tok"), ("expires_in", .num 0)] "tok" (.num 0)
    rfl rfl (by decide) rfl rfl

/-- Whether a refresh outcome is the `HaloAuthError` exception. -/
def isAuthErr : Except PyError TokenData → Bool
  | .error (.halo (.authError _)) => true
  | _ => false

/-- Modelled from the spec wording of C8, for comparison with the code:
auth failure is claimed exactly when the network call fails, the response
is not parseable as JSON, `access_token` is missing or not a string, or
`expires_in` is present but not coercible to an integer. -/
def claimedAuthCondition : TokenFetchOutcome → Bool
  | .netFail => true
  | .got none => true
  | .got (some data) =>
    (match data.get "access_token" with
     | some (.str _) => false
     | _ => true)
    || (match data.get "expires_in" with
        | some v => (pyToInt v).isNone
        | none => false)

/-- A token response with `expires_in = ""`: present and not coercible to
an integer. -/
def emptyExpiresResponse : Json :=
  .obj [("access_token", .str "tok"), ("expires_in", .str "")]

/-- Counterexample to C8 as stated: with `expires_in = ""` the spec
condition demands an authentication error (present, not coercible), but
the code's `if not expires_in` treats the falsy value as absent and
succeeds with the 300-second default. -/
theorem refreshToken_claimed_condition_cex :
    claimedAuthCondition (.got (some emptyExpiresResponse)) = true
    ∧ refreshToken 0 (.got (some emptyExpiresResponse)) = .ok ⟨"tok", 300⟩
    ∧ isAuthErr (refreshToken 0 (.got (some emptyExpiresResponse))) = false :=
  ⟨rfl, rfl, rfl⟩

/-- The corrected failure condition, read off the code: auth error exactly
when the network call fails, the response is unparseable, or — for an
object response — `access_token` is missing, not a string or empty, or
`expires_in` is present, truthy and not coercible to an integer.  (A
parseable non-object response raises an uncaught `AttributeError`
instead, which is not an authentication error.) -/
def amendedAuthCondition : TokenFetchOutcome → Bool
  | .netFail => true
  | .got none => true
  | .got (some data) =>
    match data with
    | .obj fields =>
      match lookupField fields "access_token" with
      | some (.str s) =>
        if s = "" then true
        else
          match lookupField fields "expires_in" with
          | some v => !pyFalsy v && (pyToInt v).isNone
          | none => false
      | _ => true
    | _ => false

/-- C8 (amended): the refresh path raises `HaloAuthError` exactly under
`amendedAuthCondition`; in every such case no other kind of error is
raised (the equation pins the result to the auth-error constructor). -/
theorem refreshToken_auth_error_iff (now : Int) (outcome : TokenFetchOutcome) :
    isAuthErr (refreshToken now outcome) = amendedAuthCondition outcome := by
  cases outcome with
  | netFail => rfl
  | got body =>
    cases body with
    | none => rfl
    | some data =>
      cases data with
      | obj fields =>
        cases hacc : lookupField fields "access_token" with
        | none => simp [refreshToken, amendedAuthCondition, hacc, isAuthErr]
        | some av =>
          cases av with
          | str s =>
            by_cases hs : s = ""
            · simp [refreshToken, amendedAuthCondition, hacc, hs, isAuthErr]
            · cases hexp : lookupField fields "expires_in" with
              | none =>
                simp [refreshToken, amendedAuthCondition, hacc, hs, hexp, isAuthErr]
              | some v =>
                by_cases hf : pyFalsy v
                · simp [refreshToken, amendedAuthCondition, hacc, hs, hexp, hf, isAuthErr]
                · cases hk : pyToInt v with
                  | none =>
                    simp [refreshToken, amendedAuthCondition, hacc, hs, hexp, hf, hk,
                      isAuthErr]
                  | some k =>
                    simp [refreshToken, amendedAuthCondition, hacc, hs, hexp, hf, hk,
                      isAuthErr]
          | null => simp [refreshToken, amendedAuthCondition, hacc, isAuthErr]
          | bool b => simp [refreshToken, amendedAuthCondition, hacc, isAuthErr]
          | num n => simp [refreshToken, amendedAuthCondition, hacc, isAuthErr]
          | arr elems => simp [refreshToken, amendedAuthCondition, hacc, isAuthErr]
          | obj inner => simp [refreshToken, amendedAuthCondition, hacc, isAuthErr]
      | null => rfl
      | bool b => rfl
      | num n => rfl
      | str s => rfl
      | arr elems => rfl

/-- Whether a JSON document is an array. -/
def Json.isArr : Json → Bool
  | .arr _ => true
  | _ => false

/-- C4: when the log file exists with non-empty content that is not valid
JSON (`FileState.corrupt`) or is valid JSON but not an array
(`FileState.doc j` with `j` not an array), `log()` raises the
corresponding `ValueError` and the file is left exactly as it was — the
write is never reached, so the corrupt content is not overwritten and the
corruption is not swallowed. -/
theorem logWrite_corrupt_spec (entry : Json) :
    logWrite .corrupt entry
      = (some "Task log is corrupted and cannot be parsed", .corrupt)
    ∧ ∀ j : Json, j.isArr = false →
        logWrite (.doc j) entry
          = (some "Task log must contain a JSON list of entries.", .doc j) := by
  refine ⟨rfl, fun j hj => ?_⟩
  cases j <;> simp_all [logWrite, readHistory, Json.isArr]

/-- Witness for C4: the spec scenario — a file pre-populated with the
JSON document `"not json"` (a valid JSON string, not an array) makes the
next `log()` call raise, leaving the file unchanged. -/
theorem logWrite_corrupt_spec_witness :
    logWrite (.doc (.str "not json")) .null
      = (some "Task log must contain a JSON list of entries.", .doc (.str "not json")) :=
  (logWrite_corrupt_spec .null).2 (.str "not json") rfl

/-- Inputs of one `TaskLogger.log` call (timestamps already formatted). -/
structure LogCall where
  task : String
  status : String
  started_at : String
  completed_at : String
  message : Option String
  details : Option Json

/-- The entry dict a call produces. -/
def entryOf (c : LogCall) : Json :=
  mkEntry c.task c.status c.started_at c.completed_at c.message c.details

/-- Helper: field projections of the entry dict built by `TaskLogger.log`:
every input field is recoverable (`message` under the code's truthiness
rule: the key is present exactly for a non-empty message). -/
theorem mkEntry_get (t s sa ca : String) (m : Option String) (d : Option Json) :
    (mkEntry t s sa ca m d).get "task" = some (.str t)
    ∧ (mkEntry t s sa ca m d).get "status" = some (.str s)
    ∧ (mkEntry t s sa ca m d).get "started_at" = some (.str sa)
    ∧ (mkEntry t s sa ca m d).get "completed_at" = some (.str ca)
    ∧ (mkEntry t s sa ca m d).get "message"
        = (match m with
           | some msg => if msg = "" then none else some (.str msg)
           | none => none)
    ∧ (mkEntry t s sa ca m d).get "details" = d := by
  cases m with
  | none => cases d <;> simp [mkEntry, Json.get, lookupField]
  | some msg =>
    by_cases hm : msg = "" <;>
      cases d <;> simp [mkEntry, Json.get, lookupField, hm]

/-- Helper: sequential `log()` calls against a well-formed array file
append in order. -/
theorem logAll_doc (es : List Json) :
    ∀ h, logAll (.doc (.arr h)) es = (none, .doc (.arr (h ++ es))) := by
  induction es with
  | nil => intro h; simp [logAll]
  | cons e rest ih =>
    intro h
    simp [logAll, logWrite, readHistory, ih (h ++ [e]), List.append_assoc]

/-- C9: N sequential `log()` calls starting from an absent log file
succeed, and reading the resulting file parses to a JSON array of exactly
those N entry dicts in call order; each entry's `task`, `status`,
`message` and `details` fields match the inputs of its call (`message`
under the code's truthiness rule). -/
theorem logAll_roundtrip (calls : List LogCall) :
    (logAll .absent (calls.map entryOf)).1 = none
    ∧ readHistory (logAll .absent (calls.map entryOf)).2 = .ok (calls.map entryOf)
    ∧ (calls.map entryOf).length = calls.length
    ∧ ∀ c ∈ calls,
        (entryOf c).get "task" = some (.str c.task)
        ∧ (entryOf c).get "status" = some (.str c.status)
        ∧ (entryOf c).get "message"
            = (match c.message with
               | some msg => if msg = "" then none else some (.str msg)
               | none => none)
        ∧ (entryOf c).get "details" = c.details := by
  have key : ∀ es : List Json,
      (logAll .absent es).1 = none ∧ readHistory (logAll .absent es).2 = .ok es := by
    intro es
    cases es with
    | nil => exact ⟨rfl, rfl⟩
    | cons e rest =>
      have h2 := logAll_doc rest [e]
      constructor
      · simp [logAll, logWrite, readHistory, h2]
      · simp [logAll, logWrite, readHistory, h2]
  refine ⟨(key _).1, (key _).2, by simp, fun c _ => ?_⟩
  have h := mkEntry_get c.task c.status c.started_at c.completed_at c.message c.details
  exact ⟨h.1, h.2.1, h.2.2.2.2.1, h.2.2.2.2.2⟩

/-- Witness for C9: a single call with task `daily_recalls`, status
`failed` and message `boom` rounds-trip through the file. -/
theorem logAll_roundtrip_witness :
    readHistory (logAll .absent
        (List.map entryOf [⟨"daily_recalls", "failed", "T1", "T2", some "boom", none⟩])).2
      = .ok (List.map entryOf [⟨"daily_recalls", "failed", "T1", "T2", some "boom", none⟩])
    ∧ (entryOf ⟨"daily_recalls", "failed", "T1", "T2", some "boom", none⟩).get "message"
      = some (.str "boom") := by
  refine ⟨(logAll_roundtrip _).2.1, ?_⟩
  have h := (logAll_roundtrip [⟨"daily_recalls", "failed", "T1", "T2", some "boom", none⟩]).2.2.2
    ⟨"daily_recalls", "failed", "T1", "T2", some "boom", none⟩ (by simp)
  simpa using h.2.2.1

/-- `mark_executed` as applied by the loop's `finally` block: a due task
gets a fresh `next_run`; a task that was not due is untouched. -/
def advanceTask (now : Nat) (t : STask) : STask :=
  if isDue now t then { t with next_run := scheduleNext now t.time_of_day } else t

/-- Helper: a `log()` call against a readable file appends the entry. -/
theorem logWrite_ok (fs : FileState) (h0 : List Json) (e : Json)
    (hfs : readHistory fs = .ok h0) :
    logWrite fs e = (none, .doc (.arr (h0 ++ [e]))) := by
  simp [logWrite, hfs]

/-- Helper: `_schedule_next` always lands strictly in the future. -/
theorem scheduleNext_future (now tod : Nat) (h : tod < secsPerDay) :
    now < scheduleNext now tod := by
  simp only [scheduleNext, secsPerDay] at *
  split_ifs <;> omega

/-- C2: in one poll cycle over a readable log file, every due task —
including each whose action raises — produces exactly one log entry, in
task order (the failing task's entry has `status = "failed"`, its `task`
name, and a `message` equal to the exception's message), the loop-level
`except` keeps the cycle going so every other due task still runs, and
every executed task's `next_run` is advanced in the `finally` block to a
strictly future instant, so it cannot re-trigger within the same day. -/
theorem pollCycle_spec (now : Nat) (ts : String) (fs : FileState) (tasks : List STask)
    (h0 : List Json) (hfs : readHistory fs = .ok h0) :
    readHistory (pollCycle now ts fs tasks).1
      = .ok (h0 ++ (tasks.filter (isDue now)).map (fun t => actionEntry t.name t.action ts ts))
    ∧ (pollCycle now ts fs tasks).2 = tasks.map (advanceTask now)
    ∧ (∀ t : STask, ∀ m : String, t.action = .throws m →
        (actionEntry t.name t.action ts ts).get "status" = some (.str "failed")
        ∧ (actionEntry t.name t.action ts ts).get "task" = some (.str t.name)
        ∧ (m ≠ "" → (actionEntry t.name t.action ts ts).get "message" = some (.str m)))
    ∧ (∀ t : STask, isDue now t = true → t.time_of_day < secsPerDay →
        now < (advanceTask now t).next_run) := by
  have main : ∀ (tasks : List STask) (fs : FileState) (h0 : List Json),
      readHistory fs = .ok h0 →
      readHistory (pollCycle now ts fs tasks).1
        = .ok (h0 ++ (tasks.filter (isDue now)).map
            (fun t => actionEntry t.name t.action ts ts))
      ∧ (pollCycle now ts fs tasks).2 = tasks.map (advanceTask now) := by
    intro tasks
    induction tasks with
    | nil => intro fs h0 hfs; exact ⟨by simpa [pollCycle] using hfs, rfl⟩
    | cons t rest ih =>
      intro fs h0 hfs
      by_cases hd : isDue now t = true
      · have hw := logWrite_ok fs h0 (actionEntry t.name t.action ts ts) hfs
        have hrest := ih (.doc (.arr (h0 ++ [actionEntry t.name t.action ts ts])))
          (h0 ++ [actionEntry t.name t.action ts ts]) (by simp [readHistory])
        refine ⟨?_, ?_⟩
        · simp [pollCycle, hd, hw, hrest.1, List.filter_cons, List.append_assoc]
        · simp [pollCycle, hd, hw, hrest.2, advanceTask]
      · have hrest := ih fs h0 hfs
        refine ⟨?_, ?_⟩
        · simp [pollCycle, hd, hrest.1, List.filter_cons]
        · simp [pollCycle, hd, hrest.2, advanceTask]
  refine ⟨(main tasks fs h0 hfs).1, (main tasks fs h0 hfs).2, fun t m hm => ?_,
          fun t hd htod => ?_⟩
  · have h := mkEntry_get t.name "failed" ts ts (some m) none
    rw [hm]
    refine ⟨h.2.1, h.1, fun hme => ?_⟩
    simpa [hme] using h.2.2.2.2.1
  · simpa [advanceTask, hd] using scheduleNext_future now t.time_of_day htod

/-- Witness for C2: two due tasks, the first raising `ValueError("boom")`;
both entries are logged in order, the failing entry carries the message,
and both `next_run`s advance past `now`. -/
theorem pollCycle_spec_witness :
    readHistory (pollCycle 100000 "T" .absent
        [⟨"daily_recalls", 3600, 90000, .throws "boom"⟩,
         ⟨"daily_claims", 7200, 95000, .completes none⟩]).1
      = .ok [actionEntry "daily_recalls" (.throws "boom") "T" "T",
             actionEntry "daily_claims" (.completes none) "T" "T"]
    ∧ (pollCycle 100000 "T" .absent
        [⟨"daily_recalls", 3600, 90000, .throws "boom"⟩,
         ⟨"daily_claims", 7200, 95000, .completes none⟩]).2
      = [⟨"daily_recalls", 3600, 176400, .throws "boom"⟩,
         ⟨"daily_claims", 7200, 180000, .completes none⟩]
    ∧ (actionEntry "daily_recalls" (.throws "boom") "T" "T").get "message"
      = some (.str "boom") := by
  have h := pollCycle_spec 100000 "T" .absent
    [⟨"daily_recalls", 3600, 90000, .throws "boom"⟩,
     ⟨"daily_claims", 7200, 95000, .completes none⟩] [] rfl
  exact ⟨by simpa [isDue] using h.1, rfl, rfl⟩

/-- Counterexample to C6 as stated: `run_recalls` with an action raising
`ValueError("boom")` logs the failure with `status="failed"` — but the
exception re-raised by `execute_with_logging` is not caught in `main`, so
`main` does not return 0: the process exit status is not 0. -/
theorem mainRun_failed_task_cex :
    (mainRun .run_recalls (.throws "boom") .absent "T").1 = .error "boom"
    ∧ (mainRun .run_recalls (.throws "boom") .absent "T").1 ≠ .ok 0
    ∧ readHistory (mainRun .run_recalls (.throws "boom") .absent "T").2
      = .ok [actionEntry "daily_recalls" (.throws "boom") "T" "T"]
    ∧ (actionEntry "daily_recalls" (.throws "boom") "T" "T").get "status"
      = some (.str "failed") :=
  ⟨rfl, fun h => Except.noConfusion h, rfl, rfl⟩

/-- C6 (amended): over a readable log file, `run_recalls`/`run_claims`
exit with code 0 exactly when the invoked task completes without raising;
when the task raises, the failure is still logged with `status="failed"`,
but the exception propagates out of `main` and the process exit status is
not 0. -/
theorem mainRun_exit_semantics (cmd : Command) (a : ActionSpec) (fs : FileState)
    (ts : String) (h0 : List Json) (hfs : readHistory fs = .ok h0) :
    (∀ r, a = .completes r →
        mainRun cmd a fs ts
          = (.ok 0, .doc (.arr (h0 ++ [actionEntry (cmdTaskName cmd) a ts ts]))))
    ∧ (∀ m, a = .throws m →
        mainRun cmd a fs ts
          = (.error m, .doc (.arr (h0 ++ [actionEntry (cmdTaskName cmd) a ts ts])))) := by
  have hw := logWrite_ok fs h0 (actionEntry (cmdTaskName cmd) a ts ts) hfs
  refine ⟨fun r hr => ?_, fun m hm => ?_⟩
  · subst hr; simp [mainRun, hw]
  · subst hm; simp [mainRun, hw]

/-- Witness for the amended C6: a completing `run_claims` task exits 0 and
its success entry lands in the log. -/
theorem mainRun_exit_semantics_witness :
    mainRun .run_claims (.completes none) .absent "T"
      = (.ok 0, .doc (.arr [actionEntry "daily_claims" (.completes none) "T" "T"])) := by
  have h := (mainRun_exit_semantics .run_claims (.completes none) .absent "T" [] rfl).1
    none rfl
  simpa [cmdTaskName] using h

/-- C5: the code raises `HaloAPIError` both when the transport fails with
no response ever received and when a response arrives with an unexpected
status — the same exception class, so callers cannot distinguish the two
by kind (the class's own docstring notwithstanding). -/
theorem requestRun_error_kind_shared :
    (requestRun (.ok "tok") .transportFail [200]).1
      = .error (.halo (.apiError "Failed to execute request to Halo Connect"))
    ∧ (requestRun (.ok "tok") (.got ⟨500, "text/plain", "oops", none⟩) [200]).1
      = .error (.halo (.apiError
          "Halo Connect responded with unexpected status 500: oops")) :=
  ⟨rfl, rfl⟩

/-- A 3000-character body. -/
def bigBody : String := String.mk (List.replicate 3000 'a')

/-- Counterexample to C7 as stated: a non-2xx response with a JSON content
type whose body parses is logged with the full parsed payload — here 3000
characters, beyond the 2048-character bound applied to the text branch,
so the logged body is not size-bounded. -/
theorem logErrorResponse_unbounded_cex :
    logErrorResponse ⟨400, "application/json", bigBody, some (.str bigBody)⟩
      = ⟨400, .parsed (.str bigBody)⟩
    ∧ (LoggedBody.parsed (.str bigBody)).chars = 3000
    ∧ 2048 < (LoggedBody.parsed (.str bigBody)).chars := by
  have h2 : (LoggedBody.parsed (.str bigBody)).chars = 3000 := by
    show bigBody.length = 3000
    show bigBody.data.length = 3000
    have hd : bigBody.data = List.replicate 3000 'a' := rfl
    rw [hd, List.length_replicate]
  exact ⟨rfl, h2, by rw [h2]; norm_num⟩

/-- Helper: `s[:n]` has at most `n` characters. -/
theorem pyTake_length_le (n : Nat) (s : String) : (pyTake n s).length ≤ n := by
  show (s.data.take n).length ≤ n
  simp [List.length_take]

/-- C7 (amended): every logged error record carries the status code; when
the content type does not mention `json` or the body fails to parse, only
the first 2048 characters of the body text are logged; when the body
parses as JSON the full parsed document is logged, with no size bound. -/
theorem logErrorResponse_spec (r : HttpResponse) :
    (logErrorResponse r).status = r.status
    ∧ ((hasJsonSub r.contentType.data = false ∨ r.jsonBody = none) →
        (logErrorResponse r).body = .textTrunc (pyTake 2048 r.text)
        ∧ (logErrorResponse r).body.chars ≤ 2048)
    ∧ (∀ j, hasJsonSub r.contentType.data = true → r.jsonBody = some j →
        (logErrorResponse r).body = .parsed j)
    ∧ (∀ (tok : String) (expected : List Nat), r.status ∉ expected →
        (requestRun (.ok tok) (.got r) expected).2 = [logErrorResponse r]) := by
  obtain ⟨st, ct, tx, jb⟩ := r
  refine ⟨?_, fun hcase => ?_, fun j hct hj => ?_, fun tok expected hst => ?_⟩
  · simp only [logErrorResponse]
    split_ifs <;> cases jb <;> rfl
  · have hbody : (logErrorResponse ⟨st, ct, tx, jb⟩).body = .textTrunc (pyTake 2048 tx) := by
      rcases hcase with hct | hjb
      · simp [logErrorResponse, hct]
      · subst hjb
        simp only [logErrorResponse]
        split_ifs <;> rfl
    exact ⟨hbody, by rw [hbody]; exact pyTake_length_le 2048 tx⟩
  · subst hj
    simp [logErrorResponse, hct]
  · simp [requestRun, hst]

/-- Witness for the amended C7: a plain-text 404 is logged truncated. -/
theorem logErrorResponse_spec_witness :
    (logErrorResponse ⟨404, "text/html", "oops", none⟩).body
      = .textTrunc (pyTake 2048 "oops")
    ∧ (logErrorResponse ⟨404, "text/html", "oops", none⟩).body.chars ≤ 2048 :=
  (logErrorResponse_spec ⟨404, "text/html", "oops", none⟩).2.1 (Or.inr rfl)

end Zantra
